import Mathlib

/-!
Verification of the UnderTheRadar VPN data plane against its specification.

The definitions below are shallow embeddings of the two C source files
`src/vpn-core/src/ebpf/xdp_accelerator.c` and
`src/vpn-core/src/wireguard_manager.c`.  Machine integers (`__u64`, `__be16`,
...) are modelled as `Nat` with explicit reduction modulo `2 ^ 64` at every
operation that can overflow a 64-bit register.  Big-endian header fields carry
their on-wire numeric value; `bpf_htons` is the 16-bit byte swap.
-/

/-- Modulus of 64-bit unsigned arithmetic. -/
def MOD : Nat := 2 ^ 64

/-- Largest 64-bit value, `U64_MAX` of the kernel sources. -/
def U64_MAX : Nat := MOD - 1

/-- Nanoseconds per second, the divisor used by the token refill. -/
def NSEC_PER_SEC : Nat := 1000000000

/-- Byte swap of a 16-bit value, the `bpf_htons` helper.  Header fields of
type `__be16` store `bpf_htons` of the host-order value. -/
def bpf_htons (x : Nat) : Nat := x % 256 * 256 + x / 256 % 256

/-- Byte swap of a 16-bit value, the `bpf_ntohs` helper (same involution). -/
def bpf_ntohs (x : Nat) : Nat := bpf_htons x

/-! ## Token bucket rate limiting (`check_rate_limit`, xdp_accelerator.c 188-221) -/

/-- Refill rate of the token bucket, from `check_rate_limit` (line 193):
10k packets per second. -/
def rate : Nat := 10000

/-- Burst capacity of the token bucket, from `check_rate_limit` (line 194). -/
def burst : Nat := 1000

/-- Value type of the per-source-IP entry of `rate_limit_map`
(struct rate_limit, lines 95-98). -/
structure rate_limit where
  tokens : Nat
  last_update : Nat
deriving DecidableEq, Repr

/-- Embedding of `check_rate_limit` (xdp_accelerator.c lines 188-221) acting on
the entry of `rate_limit_map` for one source IP.  `none` means the map has no
entry for this source yet; line 197-205 then installs a full bucket and accepts
without consuming a token.  The C expression
`(now - rl->last_update) * rate / 1000000000` is 64-bit arithmetic: the
subtraction and the multiplication wrap modulo `2 ^ 64`, the division does not.
Returns the verdict together with the entry stored back into the map. -/
def check_rate_limit (now : Nat) (st : Option rate_limit) : Bool × rate_limit :=
  match st with
  | none => (true, { tokens := burst, last_update := now })
  | some rl =>
    let tokens_to_add := (now + MOD - rl.last_update) % MOD * rate % MOD / NSEC_PER_SEC
    let t0 := (rl.tokens + tokens_to_add) % MOD
    let t1 := if burst < t0 then burst else t0
    if 0 < t1 then (true, { tokens := t1 - 1, last_update := now })
    else (false, { tokens := t1, last_update := now })

/-- Number of calls of `check_rate_limit` that return true along a sequence of
calls from one source IP, tagged with their (monotone) timestamps, starting
from map state `st`; each call stores its updated entry back for the next. -/
def countAccepted : Option rate_limit → List Nat → Nat
  | _, [] => 0
  | st, now :: ts =>
    match check_rate_limit now st with
    | (ok, rl) => (if ok then 1 else 0) + countAccepted (some rl) ts

theorem countAccepted_nil (st : Option rate_limit) : countAccepted st [] = 0 := rfl

theorem countAccepted_cons (st : Option rate_limit) (now : Nat) (ts : List Nat) :
    countAccepted st (now :: ts) =
      (if (check_rate_limit now st).1 then 1 else 0) +
        countAccepted (some (check_rate_limit now st).2) ts := rfl

/-- Token count of the bucket after the refill-and-cap step of
`check_rate_limit` (lines 207-211), before any decrement. -/
def bucketAfterRefill (now : Nat) (rl : rate_limit) : Nat :=
  let tokens_to_add := (now + MOD - rl.last_update) % MOD * rate % MOD / NSEC_PER_SEC
  let t0 := (rl.tokens + tokens_to_add) % MOD
  if burst < t0 then burst else t0

theorem check_rate_limit_some_eq (now : Nat) (rl : rate_limit) :
    check_rate_limit now (some rl) =
      if 0 < bucketAfterRefill now rl then
        (true, { tokens := bucketAfterRefill now rl - 1, last_update := now })
      else (false, { tokens := bucketAfterRefill now rl, last_update := now }) := rfl

theorem bucketAfterRefill_le_burst (now : Nat) (rl : rate_limit) :
    bucketAfterRefill now rl ≤ burst := by
  simp only [bucketAfterRefill]
  split <;> omega

/-- The refilled bucket is bounded by the old budget plus elapsed-time credit,
for a monotone clock with 64-bit timestamps. -/
theorem bucketAfterRefill_le (now : Nat) (rl : rate_limit) (hle : rl.last_update ≤ now)
    (hnow : now < MOD) :
    bucketAfterRefill now rl ≤ rl.tokens + (now - rl.last_update) * rate / NSEC_PER_SEC := by
  simp only [bucketAfterRefill]
  have h1 : (now + MOD - rl.last_update) % MOD = now - rl.last_update := by
    have h2 : now + MOD - rl.last_update = (now - rl.last_update) + MOD := by omega
    rw [h2, Nat.add_mod_right, Nat.mod_eq_of_lt (by omega)]
  rw [h1]
  have h3 : (now - rl.last_update) * rate % MOD / NSEC_PER_SEC ≤
      (now - rl.last_update) * rate / NSEC_PER_SEC :=
    Nat.div_le_div_right (Nat.mod_le _ _)
  have h4 : (rl.tokens + (now - rl.last_update) * rate % MOD / NSEC_PER_SEC) % MOD ≤
      rl.tokens + (now - rl.last_update) * rate % MOD / NSEC_PER_SEC := Nat.mod_le _ _
  split <;> omega

theorem check_rate_limit_tokens_le (now : Nat) (st : Option rate_limit) :
    ((check_rate_limit now st).2).tokens ≤ burst := by
  cases st with
  | none => simp [check_rate_limit]
  | some rl =>
    rw [check_rate_limit_some_eq]
    have := bucketAfterRefill_le_burst now rl
    split <;> simp <;> omega

theorem check_rate_limit_last_update (now : Nat) (st : Option rate_limit) :
    ((check_rate_limit now st).2).last_update = now := by
  cases st with
  | none => simp [check_rate_limit]
  | some rl =>
    rw [check_rate_limit_some_eq]
    split <;> rfl

/-- One call on an existing entry: the success indicator plus the remaining
budget never exceed the old budget plus the elapsed-time credit. -/
theorem check_step_bound (now : Nat) (rl : rate_limit) (hle : rl.last_update ≤ now)
    (hnow : now < MOD) :
    (if (check_rate_limit now (some rl)).1 then 1 else 0) +
        ((check_rate_limit now (some rl)).2).tokens ≤
      rl.tokens + (now - rl.last_update) * rate / NSEC_PER_SEC := by
  have hb := bucketAfterRefill_le now rl hle hnow
  rw [check_rate_limit_some_eq]
  by_cases h1 : 0 < bucketAfterRefill now rl
  · rw [if_pos h1]; simp only [if_true]; omega
  · rw [if_neg h1]; simp only [Bool.false_eq_true, if_false]; omega

/-- Potential argument: starting from an existing entry, the number of accepted
calls is bounded by the stored budget plus the credit accrued up to `tEnd`. -/
theorem count_le_potential (ts : List Nat) : ∀ (rl : rate_limit) (tEnd : Nat),
    List.Chain' (fun a b => a ≤ b) (rl.last_update :: ts) →
    (∀ t ∈ ts, t ≤ tEnd) → tEnd < MOD →
    countAccepted (some rl) ts ≤
      rl.tokens + (tEnd - rl.last_update) * rate / NSEC_PER_SEC := by
  induction ts with
  | nil => intro rl tEnd _ _ _; simp [countAccepted]
  | cons t ts ih =>
    intro rl tEnd hch hle hmod
    have hlt : rl.last_update ≤ t := (List.chain'_cons.mp hch).1
    have hch2 : List.Chain' (fun a b => a ≤ b) (t :: ts) := (List.chain'_cons.mp hch).2
    have htEnd : t ≤ tEnd := hle t (by simp)
    rw [countAccepted_cons]
    have hstep := check_step_bound t rl hlt (lt_of_le_of_lt htEnd hmod)
    have hlast : ((check_rate_limit t (some rl)).2).last_update = t :=
      check_rate_limit_last_update t (some rl)
    have hih := ih ((check_rate_limit t (some rl)).2) tEnd
      (by rw [hlast]; exact hch2)
      (fun x hx => hle x (List.mem_cons_of_mem _ hx)) hmod
    rw [hlast] at hih
    have hsplit : (t - rl.last_update) * rate / NSEC_PER_SEC +
        (tEnd - t) * rate / NSEC_PER_SEC ≤
        (tEnd - rl.last_update) * rate / NSEC_PER_SEC := by
      have h1 := Nat.add_div_le_add_div ((t - rl.last_update) * rate)
        ((tEnd - t) * rate) NSEC_PER_SEC
      have h2 : (t - rl.last_update) * rate + (tEnd - t) * rate =
          (tEnd - rl.last_update) * rate := by
        rw [← Nat.add_mul]; congr 1; omega
      rw [h2] at h1
      exact h1
    omega

/-- Behaviour of a bucket probed repeatedly at one instant: no refill happens,
so exactly the stored budget is granted. -/
theorem countAccepted_replicate_same (n : Nat) : ∀ (k t : Nat), k ≤ burst →
    countAccepted (some ⟨k, t⟩) (List.replicate n t) = min k n := by
  induction n with
  | zero => intro k t _; simp [countAccepted]
  | succ n ih =>
    intro k t hk
    rw [List.replicate_succ, countAccepted_cons]
    have hb : bucketAfterRefill t ⟨k, t⟩ = k := by
      simp only [bucketAfterRefill]
      have h1 : t + MOD - t = MOD := by omega
      rw [h1, Nat.mod_self]
      have h2 : k % MOD = k := Nat.mod_eq_of_lt (by simp [burst, MOD] at hk ⊢; omega)
      simp only [Nat.zero_mul, Nat.zero_mod, Nat.zero_div, Nat.add_zero, h2]
      rw [if_neg (Nat.not_lt.mpr hk)]
    by_cases hkpos : 0 < k
    · rw [check_rate_limit_some_eq, hb, if_pos hkpos]
      simp only
      rw [ih (k - 1) t (by omega)]
      simp only [if_true]
      omega
    · rw [check_rate_limit_some_eq, hb, if_neg hkpos]
      simp only [Bool.false_eq_true, if_false]
      have hk0 : k = 0 := by omega
      subst hk0
      rw [ih 0 t (by omega)]
      omega

/-- A fresh source gets the creation grant plus a full bucket. -/
theorem countAccepted_none_replicate (n : Nat) :
    countAccepted none (List.replicate (n + 1) 0) = 1 + min burst n := by
  rw [List.replicate_succ, countAccepted_cons]
  rw [show check_rate_limit 0 none = (true, ⟨burst, 0⟩) from rfl]
  simp only [if_true]
  rw [countAccepted_replicate_same n burst 0 (Nat.le_refl burst)]

/-! ## DDoS heuristics (`is_ddos_pattern`, xdp_accelerator.c 224-251) -/

/-- More-fragments flag of the IPv4 `frag_off` field (host order). -/
def IP_MF : Nat := 0x2000

/-- Fragment-offset mask of the IPv4 `frag_off` field (host order). -/
def IP_OFFSET : Nat := 0x1FFF

/-- Protocol number of TCP. -/
def IPPROTO_TCP : Nat := 6

/-- Protocol number of UDP. -/
def IPPROTO_UDP : Nat := 17

/-- IPv4 header fields used by the programs.  Fields of C type `__be16`
(`tot_len`, `frag_off`) and `__be32` (`saddr`, `daddr`) hold their on-wire
big-endian numeric value; `ihl`, `ttl` and `protocol` are plain bytes. -/
structure iphdr where
  ihl : Nat
  tot_len : Nat
  frag_off : Nat
  ttl : Nat
  protocol : Nat
  saddr : Nat
  daddr : Nat
deriving DecidableEq, Repr

/-- View of a captured packet as `is_ddos_pattern` sees it: the IPv4 header,
the number of captured bytes from the start of the IP header to `data_end`,
and the SYN/ACK bits found at the TCP header position (meaningful only when
the bounds check lets the program read them). -/
structure pkt_view where
  ip : iphdr
  cap_len : Nat
  tcp_syn : Bool
  tcp_ack : Bool
deriving DecidableEq, Repr

/-- Embedding of `is_ddos_pattern` (xdp_accelerator.c lines 224-251).
Check 2 of the source is the pointer comparison
`(void *)ip + bpf_ntohs(ip->tot_len) < data_end - 64`, i.e. the declared
total length is more than 64 bytes below the captured length; rendered on
`Nat` as `bpf_ntohs tot_len + 64 < cap_len`.  Check 4 reads the TCP flags
only when `(void *)(tcp + 1) <= data_end`, i.e. `ihl * 4 + 20 ≤ cap_len`. -/
def is_ddos_pattern (p : pkt_view) : Bool :=
  if p.ip.frag_off &&& bpf_htons (IP_MF ||| IP_OFFSET) ≠ 0 then true
  else if bpf_ntohs p.ip.tot_len + 64 < p.cap_len then true
  else if p.ip.ttl < 5 then true
  else if p.ip.protocol = IPPROTO_TCP ∧ p.ip.ihl * 4 + 20 ≤ p.cap_len then
    p.tcp_syn && !p.tcp_ack
  else false

/-! ## Pacing (`calculate_pacing_delay`, xdp_accelerator.c 302-309) -/

/-- Embedding of `calculate_pacing_delay` (xdp_accelerator.c lines 302-309).
All operands are 64-bit; `ns_per_byte` is the integer quotient
`1000000000 * 8 / target_bps`. -/
def calculate_pacing_delay (pkt_len : Nat) : Nat :=
  let target_bps : Nat := 10 * 1000 * 1000 * 1000
  let ns_per_byte : Nat := 1000000000 * 8 / target_bps
  pkt_len * ns_per_byte % MOD

/-! ## Egress QoS marking (`tc_vpn_egress`, xdp_accelerator.c 272-289) -/

/-- UDP port of the tunnel protocol (`WIREGUARD_PORT`, line 12). -/
def WIREGUARD_PORT : Nat := 51820

/-- Embedding of the DSCP marking block of `tc_vpn_egress`
(xdp_accelerator.c lines 276-287).  `dest` is the value of the `__be16`
field `udp->dest`, i.e. the byte-swapped destination port, exactly as the C
comparisons see it; `tos` is the current `ip->tos` byte.  Returns the `tos`
byte after the block. -/
def tc_vpn_egress_tos (dest : Nat) (tos : Nat) : Nat :=
  if dest = bpf_htons 5060 ∨ dest = bpf_htons 5061 then 0xb8
  else if bpf_htons 27000 ≤ dest ∧ dest ≤ bpf_htons 27100 then 0x88
  else if dest = bpf_htons WIREGUARD_PORT then 0x68
  else tos

/-! ## Message counter limits (wireguard_manager.c 17-18) -/

/-- Embedding of `REKEY_AFTER_MESSAGES` (`1ULL << 60`) as a 64-bit value. -/
def REKEY_AFTER_MESSAGES : Nat := (1 <<< 60) % MOD

/-- Embedding of `REJECT_AFTER_MESSAGES` (`1ULL << 64`) as a 64-bit value:
the shift by the full register width wraps to zero modulo `2 ^ 64`. -/
def REJECT_AFTER_MESSAGES : Nat := (1 <<< 64) % MOD

/-! ## Handshake retry (`undertheradar_peer_check_handshake`,
wireguard_manager.c 271-289) -/

/-- Handshake-retry state of a peer: the fields of `struct undertheradar_peer`
read and written by the retry-timer callback, plus the peer's two known
endpoints (endpoints abstracted to identifiers). -/
structure hs_peer where
  handshake_failures : Nat
  handshake_retry_interval : Nat
  endpoint : Nat
  alt_endpoint : Nat
deriving DecidableEq, Repr

/-- Modelled from the spec: `undertheradar_try_alternative_endpoint` is called
by the retry handler but its body is not among the provided sources; per the
spec it switches the peer to an alternative known endpoint before resending. -/
def undertheradar_try_alternative_endpoint (p : hs_peer) : hs_peer :=
  { p with endpoint := p.alt_endpoint }

/-- Embedding of `undertheradar_peer_check_handshake` (wireguard_manager.c
lines 271-289).  `MAX_HANDSHAKE_RETRY` is referenced but not defined in the
provided sources, so it is a parameter.  The interval doubling is 64-bit.
Returns the updated peer together with the endpoint the resent initiation is
addressed to (`undertheradar_packet_send_handshake_initiation` targets the
peer's current endpoint). -/
def undertheradar_peer_check_handshake (MAX_HANDSHAKE_RETRY : Nat) (p : hs_peer) :
    hs_peer × Nat :=
  let p1 := if 3 < p.handshake_failures then undertheradar_try_alternative_endpoint p else p
  let p2 := { p1 with handshake_retry_interval := min (p1.handshake_retry_interval * 2 % MOD) MAX_HANDSHAKE_RETRY }
  (p2, p2.endpoint)

/-- State transformer of one retry-timer expiry. -/
def retryStep (M : Nat) (p : hs_peer) : hs_peer :=
  (undertheradar_peer_check_handshake M p).1

theorem retryStep_interval (M : Nat) (p : hs_peer) :
    (retryStep M p).handshake_retry_interval =
      min (p.handshake_retry_interval * 2 % MOD) M := by
  simp only [retryStep, undertheradar_peer_check_handshake,
    undertheradar_try_alternative_endpoint]
  split <;> rfl

theorem retryStep_failures (M : Nat) (p : hs_peer) :
    (retryStep M p).handshake_failures = p.handshake_failures := by
  simp only [retryStep, undertheradar_peer_check_handshake,
    undertheradar_try_alternative_endpoint]
  split <;> rfl

/-! ## Kill switch (`undertheradar_enable_kill_switch`,
wireguard_manager.c 189-214) -/

/-- Numeric value of the `ENOMEM` errno. -/
def ENOMEM : Int := 12

/-- Identifier of the first installed rule, `-A OUTPUT -o <dev> -j ACCEPT`. -/
def RULE_ALLOW_TUNNEL : Nat := 1

/-- Identifier of the second installed rule, `-A OUTPUT -j DROP`. -/
def RULE_DROP_ALL : Nat := 2

/-- Outcomes of the external iptables collaborator for one enable attempt.
Modelled from the spec (§6): `install_rule` installs the rule and returns 0 on
success; on failure it returns a negative errno and leaves the rule set
unchanged.  `create_rule_ok` is whether allocation of the first rule succeeds
(the source checks allocation only for the first rule). -/
structure iptables_env where
  create_rule_ok : Bool
  add_rule1_ret : Int
  add_rule2_ret : Int
deriving DecidableEq, Repr

/-- Kill-switch-relevant state of `struct undertheradar_device`: the
`kill_switch_enabled` flag and the firewall rules currently installed. -/
structure ks_device where
  kill_switch_enabled : Bool
  installed_rules : List Nat
deriving DecidableEq, Repr

/-- Embedding of `undertheradar_enable_kill_switch` (wireguard_manager.c lines
189-214).  Returns the C return value together with the resulting state.  The
source does not check the result of creating the second rule, nor does it roll
back the first rule or skip setting the flag when installing the second rule
fails. -/
def undertheradar_enable_kill_switch (env : iptables_env) (wg : ks_device) :
    Int × ks_device :=
  if wg.kill_switch_enabled then (0, wg)
  else if env.create_rule_ok = false then (-ENOMEM, wg)
  else if env.add_rule1_ret < 0 then (env.add_rule1_ret, wg)
  else
    let wg1 : ks_device :=
      { wg with installed_rules := wg.installed_rules ++ [RULE_ALLOW_TUNNEL] }
    let wg2 : ks_device :=
      if env.add_rule2_ret < 0 then wg1
      else { wg1 with installed_rules := wg1.installed_rules ++ [RULE_DROP_ALL] }
    (env.add_rule2_ret, { wg2 with kill_switch_enabled := true })

/-! ## Routing lookup (`undertheradar_routing_lookup`,
wireguard_manager.c 338-363) -/

/-- Routing-relevant view of a peer: its id, the load inputs, and the outcome
of `undertheradar_peer_matches_skb` for the packet in question (that helper is
external to the provided sources, so its verdict is carried as a field). -/
structure route_peer where
  peer_id : Nat
  tx_bytes : Nat
  last_handshake_rtt : Nat
  matches_skb : Bool
deriving DecidableEq, Repr

/-- Load score of a peer (wireguard_manager.c lines 353-354):
`tx_bytes + last_handshake_rtt * 1000` in 64-bit arithmetic. -/
def peer_load (p : route_peer) : Nat :=
  (p.tx_bytes + p.last_handshake_rtt * 1000 % MOD) % MOD

/-- Loop of `undertheradar_routing_lookup`: walk the peer list keeping the
first peer whose load is strictly below the running minimum. -/
def routing_go : Option route_peer → Nat → List route_peer → Option route_peer
  | best, _, [] => best
  | best, lowest, p :: ps =>
    if p.matches_skb = false then routing_go best lowest ps
    else if peer_load p < lowest then routing_go (some p) (peer_load p) ps
    else routing_go best lowest ps

/-- Embedding of `undertheradar_routing_lookup` (wireguard_manager.c lines
338-363): `lowest_load` starts at `U64_MAX`, `best_peer` at NULL. -/
def undertheradar_routing_lookup (peers : List route_peer) : Option route_peer :=
  routing_go none U64_MAX peers

theorem peer_load_lt_MOD (p : route_peer) : peer_load p < MOD := by
  have h : 0 < MOD := by decide
  simp only [peer_load]
  exact Nat.mod_lt _ h

theorem routing_go_spec (ps : List route_peer) :
    ∀ (best : Option route_peer) (lowest : Nat) (q : route_peer),
    (∀ b, best = some b → b.matches_skb = true ∧ peer_load b ≤ lowest) →
    routing_go best lowest ps = some q →
    q.matches_skb = true ∧ peer_load q ≤ lowest ∧
      (∀ p ∈ ps, p.matches_skb = true → peer_load q ≤ peer_load p) := by
  induction ps with
  | nil =>
    intro best lowest q hbest hrun
    simp only [routing_go] at hrun
    obtain ⟨h1, h2⟩ := hbest q hrun
    exact ⟨h1, h2, by intro p hp; simp at hp⟩
  | cons p ps ih =>
    intro best lowest q hbest hrun
    simp only [routing_go] at hrun
    by_cases hm : p.matches_skb = false
    · rw [if_pos hm] at hrun
      obtain ⟨h1, h2, h3⟩ := ih best lowest q hbest hrun
      refine ⟨h1, h2, ?_⟩
      intro x hx hxm
      rcases List.mem_cons.mp hx with hx1 | hx2
      · subst hx1; rw [hxm] at hm; cases hm
      · exact h3 x hx2 hxm
    · rw [if_neg hm] at hrun
      by_cases hl : peer_load p < lowest
      · rw [if_pos hl] at hrun
        have hm' : p.matches_skb = true := by
          revert hm; cases p.matches_skb <;> simp
        obtain ⟨h1, h2, h3⟩ := ih (some p) (peer_load p) q
          (by intro b hb; cases hb; exact ⟨hm', Nat.le_refl _⟩) hrun
        refine ⟨h1, Nat.le_trans h2 (Nat.le_of_lt hl), ?_⟩
        intro x hx hxm
        rcases List.mem_cons.mp hx with hx1 | hx2
        · subst hx1; exact h2
        · exact h3 x hx2 hxm
      · rw [if_neg hl] at hrun
        obtain ⟨h1, h2, h3⟩ := ih best lowest q hbest hrun
        refine ⟨h1, h2, ?_⟩
        intro x hx hxm
        rcases List.mem_cons.mp hx with hx1 | hx2
        · subst hx1; exact Nat.le_trans h2 (Nat.le_of_not_lt hl)
        · exact h3 x hx2 hxm

theorem routing_go_isSome_of_best (ps : List route_peer) :
    ∀ (b : route_peer) (lowest : Nat), (routing_go (some b) lowest ps).isSome := by
  induction ps with
  | nil => intro b lowest; rfl
  | cons p ps ih =>
    intro b lowest
    simp only [routing_go]
    by_cases hm : p.matches_skb = false
    · rw [if_pos hm]; exact ih b lowest
    · rw [if_neg hm]
      by_cases hl : peer_load p < lowest
      · rw [if_pos hl]; exact ih p (peer_load p)
      · rw [if_neg hl]; exact ih b lowest

theorem routing_go_isSome (ps : List route_peer) :
    ∀ (best : Option route_peer) (lowest : Nat),
    (∃ p ∈ ps, p.matches_skb = true ∧ peer_load p < lowest) →
    (routing_go best lowest ps).isSome := by
  induction ps with
  | nil => intro best lowest h; simp at h
  | cons p ps ih =>
    intro best lowest h
    simp only [routing_go]
    by_cases hm : p.matches_skb = false
    · rw [if_pos hm]
      obtain ⟨x, hx, hxm, hxl⟩ := h
      rcases List.mem_cons.mp hx with hx1 | hx2
      · subst hx1; rw [hxm] at hm; cases hm
      · exact ih best lowest ⟨x, hx2, hxm, hxl⟩
    · rw [if_neg hm]
      by_cases hl : peer_load p < lowest
      · rw [if_pos hl]; exact routing_go_isSome_of_best ps p (peer_load p)
      · rw [if_neg hl]
        obtain ⟨x, hx, hxm, hxl⟩ := h
        rcases List.mem_cons.mp hx with hx1 | hx2
        · subst hx1; exact absurd hxl hl
        · exact ih best lowest ⟨x, hx2, hxm, hxl⟩

/-! ## Claim theorems -/

/-- C1 (counterexample): the window bound `burst_capacity + rate*T` as stated
fails.  A fresh source issuing 1001 back-to-back calls (window length T = 0)
gets 1001 successes: the entry-creation call accepts without consuming a
token, then the full burst of 1000 tokens is granted.  The claimed bound for
T = 0 is `burst + rate * 0 = 1000 < 1001`. -/
theorem rate_limit_window_counterexample :
    burst + rate * 0 / NSEC_PER_SEC < countAccepted none (List.replicate 1001 0) := by
  have h2 : countAccepted none (List.replicate 1001 0) = 1001 := by
    show countAccepted none (List.replicate (1000 + 1) 0) = 1001
    rw [countAccepted_none_replicate]
    decide
  rw [h2]
  decide

/-- C1 (amended): for every sequence of `check_rate_limit` calls from one
source IP at monotone timestamps lying in a window `[w, w + T]` (nanoseconds,
below `2 ^ 64`), the number of calls returning true is at most
`burst_capacity + 1 + rate * T` tokens (integer division by 10^9 converting
nanoseconds to seconds); the extra 1 is the entry-creation grant, which
accepts without consuming a token. -/
theorem rate_limit_sliding_window (st : Option rate_limit) (w T : Nat) (ts : List Nat)
    (hch : List.Chain' (fun a b => a ≤ b) ts)
    (hin : ∀ t ∈ ts, w ≤ t ∧ t ≤ w + T)
    (hmod : w + T < MOD) :
    countAccepted st ts ≤ burst + 1 + T * rate / NSEC_PER_SEC := by
  cases ts with
  | nil => simp [countAccepted]
  | cons t ts2 =>
    rw [countAccepted_cons]
    have htok : ((check_rate_limit t st).2).tokens ≤ burst := check_rate_limit_tokens_le t st
    have hlast : ((check_rate_limit t st).2).last_update = t := check_rate_limit_last_update t st
    have hw : w ≤ t ∧ t ≤ w + T := hin t (by simp)
    have hpot := count_le_potential ts2 ((check_rate_limit t st).2) (w + T)
      (by rw [hlast]; exact hch)
      (fun x hx => (hin x (List.mem_cons_of_mem _ hx)).2) hmod
    rw [hlast] at hpot
    have hdiv : (w + T - t) * rate / NSEC_PER_SEC ≤ T * rate / NSEC_PER_SEC :=
      Nat.div_le_div_right (Nat.mul_le_mul_right rate (by omega))
    have hok : (if (check_rate_limit t st).1 then 1 else 0) ≤ 1 := by split <;> omega
    omega

/-- C1 (witness for the amended theorem). -/
theorem rate_limit_sliding_window_witness :
    countAccepted none [5] ≤ burst + 1 + 0 * rate / NSEC_PER_SEC :=
  rate_limit_sliding_window none 5 0 [5] (by simp) (by simp) (by decide)

/-- C9: after every `check_rate_limit` call the invariant
`0 ≤ tokens ≤ burst_capacity` holds for the stored entry (the refill caps at
`burst`), and when the call returns false no decrement happened: the stored
token count is exactly the refilled value, which is then 0, so the unsigned
counter cannot underflow. -/
theorem rate_limit_tokens_invariant (now : Nat) (st : Option rate_limit) :
    ((check_rate_limit now st).2).tokens ≤ burst ∧
      ((check_rate_limit now st).1 = false → ((check_rate_limit now st).2).tokens = 0) := by
  refine ⟨check_rate_limit_tokens_le now st, ?_⟩
  cases st with
  | none => intro h; simp [check_rate_limit] at h
  | some rl =>
    rw [check_rate_limit_some_eq]
    by_cases h1 : 0 < bucketAfterRefill now rl
    · rw [if_pos h1]; intro h; simp at h
    · rw [if_neg h1]; intro _; simp only; omega

/-- C9 (witness): a bucket at zero with zero elapsed time reports failure and
stores zero tokens. -/
theorem rate_limit_tokens_invariant_witness :
    ((check_rate_limit 0 (some ⟨0, 0⟩)).2).tokens = 0 :=
  (rate_limit_tokens_invariant 0 (some ⟨0, 0⟩)).2 rfl

/-- C10: a source IP with no existing entry gets an entry with a full burst
of tokens and an immediate accept with no decrement; consequently 1001
back-to-back packets from a fresh source are all accepted, and the 1002nd is
the first to be dropped. -/
theorem rate_limit_fresh_source_grant :
    (∀ now, check_rate_limit now none = (true, { tokens := burst, last_update := now })) ∧
      countAccepted none (List.replicate 1001 0) = 1001 ∧
      countAccepted none (List.replicate 1002 0) = 1001 := by
  refine ⟨fun now => rfl, ?_, ?_⟩
  · show countAccepted none (List.replicate (1000 + 1) 0) = 1001
    rw [countAccepted_none_replicate]
    decide
  · show countAccepted none (List.replicate (1001 + 1) 0) = 1001
    rw [countAccepted_none_replicate]
    decide

/-- C2 (counterexample): a truncated packet whose captured length (100 bytes)
is far below its declared total length (2000 bytes, inconsistency well beyond
the 64-byte slack) is NOT flagged by `is_ddos_pattern`: the length heuristic
of the source fires in the opposite direction.  The packet is unfragmented
UDP with normal TTL, so no other heuristic applies. -/
theorem ddos_truncated_packet_not_dropped :
    is_ddos_pattern ⟨⟨5, bpf_htons 2000, 0, 64, IPPROTO_UDP, 0, 0⟩, 100, false, false⟩ = false ∧
      100 + 64 < bpf_ntohs (bpf_htons 2000) := by
  constructor
  · rfl
  · decide

/-- C2 (amended): the length heuristic of `is_ddos_pattern` drops a packet
whose CAPTURED length exceeds its declared total length by more than 64
bytes (the transcription of `(void *)ip + bpf_ntohs(ip->tot_len) <
data_end - 64`); a packet whose captured length is far below its declared
length is not dropped by this heuristic. -/
theorem ddos_drops_overlong_capture (p : pkt_view)
    (h : bpf_ntohs p.ip.tot_len + 64 < p.cap_len) : is_ddos_pattern p = true := by
  simp only [is_ddos_pattern]
  by_cases h1 : p.ip.frag_off &&& bpf_htons (IP_MF ||| IP_OFFSET) ≠ 0
  · rw [if_pos h1]
  · rw [if_neg h1, if_pos h]

/-- C2 (witness for the amended theorem). -/
theorem ddos_drops_overlong_capture_witness :
    is_ddos_pattern ⟨⟨5, bpf_htons 20, 0, 64, IPPROTO_UDP, 0, 0⟩, 1000, false, false⟩ = true :=
  ddos_drops_overlong_capture ⟨⟨5, bpf_htons 20, 0, 64, IPPROTO_UDP, 0, 0⟩, 1000, false, false⟩
    (by decide)

/-- C3: the pacing delay computed by `calculate_pacing_delay` is zero for
every packet length, including the 1500-byte packet shown: the integer
quotient `1000000000 * 8 / (10 * 10^9)` is 0, so no earliest-transmit
timestamp is ever set (`tc_vpn_egress` guards with `delay > 0`).  The claimed
value for a 1500-byte packet is 1200 ns, and the claim asserts a nonzero
delay for every nonzero length. -/
theorem calculate_pacing_delay_always_zero :
    calculate_pacing_delay 1500 = 0 ∧ ∀ pkt_len, calculate_pacing_delay pkt_len = 0 := by
  refine ⟨rfl, fun pkt_len => ?_⟩
  show pkt_len * (1000000000 * 8 / (10 * 1000 * 1000 * 1000)) % MOD = 0
  norm_num

/-- C4: under 64-bit arithmetic `REJECT_AFTER_MESSAGES = 1ULL << 64`
evaluates to 0 (the shift equals the register width), which is strictly BELOW
the rekey threshold `REKEY_AFTER_MESSAGES = 2^60`, contradicting the claimed
ordering: a monotone counter reaches the termination ceiling (any value is
already beyond 0) long before the rekey threshold. -/
theorem reject_after_messages_is_zero :
    REJECT_AFTER_MESSAGES = 0 ∧ REJECT_AFTER_MESSAGES < REKEY_AFTER_MESSAGES := by
  constructor
  · show (1 <<< 64) % MOD = 0
    decide
  · show (1 <<< 64) % MOD < (1 <<< 60) % MOD
    decide

/-- C5 (counterexample): the retry handler does not increment the failure
counter.  For a peer with 0 recorded failures, after one retry-timer expiry
the counter is still 0, not 1 as the claim states (the handler only reads
`handshake_failures`; no increment appears in it). -/
theorem check_handshake_no_failure_increment :
    ¬ (((undertheradar_peer_check_handshake 100 ⟨0, 1, 10, 20⟩).1).handshake_failures =
        (⟨0, 1, 10, 20⟩ : hs_peer).handshake_failures + 1) := by decide

/-- C5 (amended): on each retry-timer expiry the handler leaves the failure
counter unchanged, doubles the retry interval capping it at
`MAX_HANDSHAKE_RETRY`, and resends an initiation; when the failure counter
already exceeds 3 the initiation targets the alternative endpoint.  After k
consecutive expiries starting from the base interval, the interval equals
`min (base * 2 ^ k) max_cap` (for `base ≤ max_cap < 2 ^ 63`, so the 64-bit
doubling cannot wrap). -/
theorem check_handshake_backoff (M base : Nat) (p : hs_peer)
    (hbM : base ≤ M) (hM : M < 2 ^ 63) (hbase : p.handshake_retry_interval = base) :
    (∀ k, ((retryStep M)^[k] p).handshake_retry_interval = min (base * 2 ^ k) M)
    ∧ (undertheradar_peer_check_handshake M p).2 =
        (if 3 < p.handshake_failures then p.alt_endpoint else p.endpoint)
    ∧ ((undertheradar_peer_check_handshake M p).1).handshake_failures = p.handshake_failures := by
  refine ⟨?_, ?_, ?_⟩
  · intro k
    induction k with
    | zero =>
      simp only [Function.iterate_zero, id, hbase, pow_zero, Nat.mul_one]
      omega
    | succ k ih =>
      rw [Function.iterate_succ_apply', retryStep_interval, ih]
      have hlt : min (base * 2 ^ k) M * 2 < MOD := by
        have h1 : min (base * 2 ^ k) M ≤ M := Nat.min_le_right _ _
        have h2 : (2 : Nat) ^ 64 = 2 ^ 63 * 2 := by norm_num
        show min (base * 2 ^ k) M * 2 < 2 ^ 64
        rw [h2]
        omega
      rw [Nat.mod_eq_of_lt hlt, pow_succ, ← Nat.mul_assoc]
      omega
  · simp only [undertheradar_peer_check_handshake, undertheradar_try_alternative_endpoint]
    split <;> rfl
  · simp only [undertheradar_peer_check_handshake, undertheradar_try_alternative_endpoint]
    split <;> rfl

/-- C5 (witness for the amended theorem): base interval 2 and cap 8; two
expiries give interval `min (2 * 4) 8 = 8`. -/
theorem check_handshake_backoff_witness :
    ((retryStep 8)^[2] ⟨0, 2, 10, 20⟩).handshake_retry_interval = min (2 * 2 ^ 2) 8 :=
  (check_handshake_backoff 8 2 ⟨0, 2, 10, 20⟩ (by decide) (by norm_num) rfl).1 2

/-- C6: if installing the second (deny-all-egress) rule fails after the first
(allow-via-tunnel) rule was installed, `undertheradar_enable_kill_switch`
returns the error yet leaves the first rule installed and sets
`kill_switch_enabled` to true — the partial attempt is not rolled back,
contradicting the claim that a failing enable leaves state unchanged. -/
theorem kill_switch_partial_install :
    undertheradar_enable_kill_switch ⟨true, 0, -1⟩ ⟨false, []⟩ =
      (-1, ⟨true, [RULE_ALLOW_TUNNEL]⟩) := by decide

/-- C7: destination port 121 is none of 5060, 5061, a port in 27000..27100,
or 51820, yet the egress classifier sets its tos byte to 0x88 (AF41): the
game-range comparison `udp->dest >= bpf_htons(27000) && udp->dest <=
bpf_htons(27100)` compares byte-swapped values numerically, and
`bpf_htons 121 = 0x7900` falls inside `[bpf_htons 27000, bpf_htons 27100] =
[0x7869, 0xdc69]`.  The claim says such a port leaves the marking
unchanged (here 0). -/
theorem tc_egress_marks_unrelated_port :
    tc_vpn_egress_tos (bpf_htons 121) 0 = 0x88 ∧
      ¬ (27000 ≤ 121 ∧ 121 ≤ 27100) ∧ (0x88 : Nat) ≠ 0 := by decide

/-- C8 (counterexample): two matching peers with equal load scores but ids 5
and 3, listed in that order: the lookup returns the peer with id 5 (first in
list order), not the one with the lowest id as the claim states. -/
theorem routing_tie_break_counterexample :
    undertheradar_routing_lookup [⟨5, 0, 0, true⟩, ⟨3, 0, 0, true⟩] = some ⟨5, 0, 0, true⟩ ∧
      peer_load ⟨5, 0, 0, true⟩ = peer_load ⟨3, 0, 0, true⟩ ∧ (5 : Nat) ≠ 3 := by decide

/-- Helper for the amended C8 statement: with a matching head peer of feasible
load and a second peer that is not strictly better, the two-element lookup
returns the head. -/
theorem routing_pair_lookup (a b : route_peer) (ha : a.matches_skb = true)
    (hb : b.matches_skb = true) (hla : peer_load a < U64_MAX)
    (hnl : ¬ peer_load b < peer_load a) :
    undertheradar_routing_lookup [a, b] = some a := by
  have ha' : ¬ (a.matches_skb = false) := by simp [ha]
  have hb' : ¬ (b.matches_skb = false) := by simp [hb]
  show routing_go none U64_MAX (a :: b :: []) = some a
  rw [show routing_go none U64_MAX (a :: b :: []) = routing_go (some a) (peer_load a) (b :: []) from by
    simp only [routing_go]; rw [if_neg ha', if_pos hla]]
  rw [show routing_go (some a) (peer_load a) (b :: []) = routing_go (some a) (peer_load a) [] from by
    simp only [routing_go]; rw [if_neg hb', if_neg hnl]]
  rfl

/-- C8 (amended): whenever the lookup returns a peer, that peer matches the
packet and its load score `tx_bytes + last_handshake_rtt * 1000` (64-bit) is
minimal among all matching candidates; for two matching peers the one with the
strictly lower load is returned, and on equal loads the FIRST peer in list
order is returned (not the lowest id); a peer is returned whenever some
matching candidate has load below `U64_MAX` (a candidate whose load equals
`U64_MAX` is never selected, as the comparison with the initial minimum is
strict). -/
theorem routing_lookup_least_loaded :
    (∀ peers q, undertheradar_routing_lookup peers = some q →
        q.matches_skb = true ∧ ∀ p ∈ peers, p.matches_skb = true → peer_load q ≤ peer_load p)
    ∧ (∀ a b : route_peer, a.matches_skb = true → b.matches_skb = true →
        peer_load a < peer_load b → undertheradar_routing_lookup [a, b] = some a)
    ∧ (∀ a b : route_peer, a.matches_skb = true → b.matches_skb = true →
        peer_load a = peer_load b → peer_load a < U64_MAX →
        undertheradar_routing_lookup [a, b] = some a)
    ∧ (∀ peers, (∃ p ∈ peers, p.matches_skb = true ∧ peer_load p < U64_MAX) →
        (undertheradar_routing_lookup peers).isSome) := by
  refine ⟨?_, ?_, ?_, ?_⟩
  · intro peers q h
    obtain ⟨h1, _, h3⟩ := routing_go_spec peers none U64_MAX q (fun b hb => by cases hb) h
    exact ⟨h1, h3⟩
  · intro a b ha hb hl
    have hbM : peer_load b < MOD := peer_load_lt_MOD b
    refine routing_pair_lookup a b ha hb ?_ ?_
    · simp only [U64_MAX]; omega
    · omega
  · intro a b ha hb heq hla
    exact routing_pair_lookup a b ha hb hla (by omega)
  · intro peers h
    exact routing_go_isSome peers none U64_MAX h

/-- C8 (witness for the amended theorem): a strictly less-loaded matching peer
wins the two-element lookup. -/
theorem routing_lookup_least_loaded_witness :
    undertheradar_routing_lookup [⟨1, 10, 0, true⟩, ⟨2, 20, 0, true⟩] = some ⟨1, 10, 0, true⟩ :=
  routing_lookup_least_loaded.2.1 ⟨1, 10, 0, true⟩ ⟨2, 20, 0, true⟩ rfl rfl (by decide)
